import Mathlib

/-!
Verification of the codepromptu repository/access-control layer.

Shallow embedding of `src/data/prompt_repository.py` (class
`MySQLPromptRepository`) and `src/web/dependencies.py`.  The MySQL state is
modelled by explicit lists of rows for the three tables
`prompts(id, guid, content, display_name, author)`, `tags(id, tag)` and
`prompt_tags(prompt_id, tag_id)`; each repository method becomes a pure
function from a `DB` to a `DB` (or to `Except RepoError _` when the Python
method can raise).  The SQL statements are translated clause by clause:
a `WHERE a AND b` filter becomes a boolean `List.filter`, an
`INSERT ... SELECT` over a cross join becomes a `List.bind`/`List.map`, a
`DELETE ... INNER JOIN` becomes a `List.filter` with the join condition
negated, and `cursor.fetchone()` becomes `List.find?`.
-/

set_option maxRecDepth 8000

namespace Codepromptu

/-- `core.models.User` (pydantic): username, password (plaintext), class_key. -/
structure User where
  username : String
  password : String
  class_key : String
deriving Repr, DecidableEq

/-- A row of the `prompts` table: surrogate `id`, public `guid`, `content`,
`display_name` and nullable `author` (the owning username or SQL NULL).
The store-managed timestamps play no role in any claim and are omitted. -/
structure PromptRow where
  id : Nat
  guid : String
  content : String
  display_name : String
  author : Option String
deriving Repr, DecidableEq

/-- A row of the `tags` table: surrogate `id` and the UNIQUE `tag` text. -/
structure TagRow where
  id : Nat
  tag : String
deriving Repr, DecidableEq

/-- A row of the `prompt_tags` association table. -/
structure PromptTagRow where
  prompt_id : Nat
  tag_id : Nat
deriving Repr, DecidableEq

/-- The database state: the three tables plus the AUTO_INCREMENT counters
for the two surrogate keys. -/
structure DB where
  prompts : List PromptRow
  tags : List TagRow
  prompt_tags : List PromptTagRow
  next_prompt_id : Nat
  next_tag_id : Nat
deriving Repr, DecidableEq

/-- The value a repository read returns: the prompt row together with the
`GROUP_CONCAT(tags.tag)` aggregation, kept as a list of tag strings. -/
structure Prompt where
  row : PromptRow
  tags : List String
deriving Repr, DecidableEq

/-- The errors a repository operation can signal.  `recordNotFound` and
`unauthorized` model `core.exceptions.RecordNotFoundError` and
`core.exceptions.UnauthorizedError`; `noneSubscript` models the unhandled
Python `TypeError` raised by `fetchone()['author']` when `fetchone()`
returned `None` — an error outside the repository's own taxonomy. -/
inductive RepoError where
  | recordNotFound
  | unauthorized
  | noneSubscript
deriving Repr, DecidableEq

instance {ε α : Type} [DecidableEq ε] [DecidableEq α] : DecidableEq (Except ε α) :=
  fun a b =>
    match a, b with
    | .ok x, .ok y =>
        if h : x = y then .isTrue (h ▸ rfl)
        else .isFalse (fun hc => h (Except.ok.inj hc))
    | .error x, .error y =>
        if h : x = y then .isTrue (h ▸ rfl)
        else .isFalse (fun hc => h (Except.error.inj hc))
    | .ok _, .error _ => .isFalse (fun hc => Except.noConfusion hc)
    | .error _, .ok _ => .isFalse (fun hc => Except.noConfusion hc)

/-- The ownership-scope clause every scoped query appends:
`AND prompts.author = %s` with the caller's username when a user context is
present, `AND prompts.author IS NULL` when it is absent.  (SQL `NULL = x`
is never true, which `none == some _ = false` reproduces.) -/
def authorScope (user : Option User) (author : Option String) : Bool :=
  match user with
  | some u => author == some u.username
  | none => author == none

/-- The `LEFT JOIN prompt_tags ... LEFT JOIN tags ... GROUP_CONCAT(tags.tag)`
aggregation for the prompt row with surrogate id `pid`: every association
row for `pid`, joined to every `tags` row with the matching id (`id` is a
primary key, so at most one), contributing its tag text.  A dangling
`tag_id` contributes SQL NULL, which `GROUP_CONCAT` skips — hence nothing. -/
def tags_of_prompt_id (db : DB) (pid : Nat) : List String :=
  (db.prompt_tags.filter (fun pt => pt.prompt_id == pid)).flatMap
    (fun pt => (db.tags.filter (fun r => r.id == pt.tag_id)).map (fun r => r.tag))

/-- The first statement of `add_tag_to_prompt`:
`INSERT INTO tags (tag) VALUES (%s) AS new ON DUPLICATE KEY UPDATE tag = new.tag`.
The `tag` column is UNIQUE, so when the text is already present the
statement leaves the table unchanged; otherwise it inserts a fresh row. -/
def upsert_tag (db : DB) (t : String) : DB :=
  if db.tags.any (fun r => r.tag == t) then db
  else { db with tags := db.tags ++ [⟨db.next_tag_id, t⟩],
                 next_tag_id := db.next_tag_id + 1 }

/-- `MySQLPromptRepository.add_tag_to_prompt(guid, tag, user)`: upserts the
tag, then runs
`INSERT INTO prompt_tags (prompt_id, tag_id) SELECT prompts.id, tags.id
FROM prompts, tags WHERE prompts.guid = %s AND tags.tag = %s` plus the
ownership-scope clause — a cross join inserting one association row per
matching (prompt, tag) pair. -/
def add_tag_to_prompt (db : DB) (guid tag : String) (user : Option User) : DB :=
  let db1 := upsert_tag db tag
  let linked : List PromptTagRow :=
    (db1.prompts.filter (fun p => p.guid == guid && authorScope user p.author)).flatMap
      (fun p => (db1.tags.filter (fun r => r.tag == tag)).map (fun r => ⟨p.id, r.id⟩))
  { db1 with prompt_tags := db1.prompt_tags ++ linked }

/-- `MySQLPromptRepository.remove_tag_from_prompt(guid, tag, user)`:
`DELETE prompt_tags FROM prompt_tags INNER JOIN prompts ... INNER JOIN tags ...
WHERE prompts.guid = %s AND tags.tag = %s` plus the ownership-scope clause. -/
def remove_tag_from_prompt (db : DB) (guid tag : String) (user : Option User) : DB :=
  { db with prompt_tags := db.prompt_tags.filter (fun pt =>
      ! (db.prompts.any (fun p =>
            p.id == pt.prompt_id && p.guid == guid && authorScope user p.author)
         && db.tags.any (fun r => r.id == pt.tag_id && r.tag == tag))) }

/-- `MySQLPromptRepository.remove_all_tags_from_prompt(guid, user=None)`:
`DELETE prompt_tags FROM prompt_tags INNER JOIN prompts ON
prompt_tags.prompt_id = prompts.id WHERE prompts.guid = %s` plus the
ownership-scope clause (`if user:` — a `User` object is truthy, `None` is
falsy). -/
def remove_all_tags_from_prompt (db : DB) (guid : String) (user : Option User) : DB :=
  { db with prompt_tags := db.prompt_tags.filter (fun pt =>
      ! db.prompts.any (fun p =>
          p.id == pt.prompt_id && p.guid == guid && authorScope user p.author)) }

/-- `MySQLPromptRepository._update_tags(guid, tags)`: removes all existing
tags, then adds the new ones one by one.  Note: the Python code passes **no
user** to either call, so both `remove_all_tags_from_prompt` and
`add_tag_to_prompt` run with their default `user=None`, i.e. in the
anonymous (`author IS NULL`) scope. -/
def update_tags (db : DB) (guid : String) (tags : List String) : DB :=
  tags.foldl (fun d t => add_tag_to_prompt d guid t none)
    (remove_all_tags_from_prompt db guid none)

/-- `core.models.PromptUpdate`: content, display_name, tags, guid.  (The
inherited `author` field is ignored by the repository and omitted.) -/
structure PromptUpdate where
  content : String
  display_name : String
  tags : List String
  guid : String
deriving Repr, DecidableEq

/-- `MySQLPromptRepository.create_prompt(prompt, author)`: inserts a row
with a generated guid and `author = author.username if author else None`,
then replaces the tag set via `_update_tags`.  The guid produced by
`core.make_guid()` is passed in as a parameter of the model. -/
def create_prompt (db : DB) (guid content display_name : String)
    (tags : List String) (author : Option User) : DB × String :=
  let db1 : DB :=
    { db with
      prompts := db.prompts ++
        [⟨db.next_prompt_id, guid, content, display_name,
          author.map (fun u => u.username)⟩],
      next_prompt_id := db.next_prompt_id + 1 }
  (update_tags db1 guid tags, guid)

/-- `MySQLPromptRepository.update_prompt(prompt, user)`:
`UPDATE prompts SET content = %s, display_name = %s, author = %s WHERE guid = %s`
with `author = user.username if user else None` — no ownership check — then
`_update_tags`. -/
def update_prompt (db : DB) (pu : PromptUpdate) (user : Option User) : DB :=
  let db1 : DB :=
    { db with prompts := db.prompts.map (fun p =>
        if p.guid == pu.guid then
          { p with content := pu.content, display_name := pu.display_name,
                   author := user.map (fun u => u.username) }
        else p) }
  update_tags db1 pu.guid pu.tags

/-- `MySQLPromptRepository._check_prompt_ownership(guid, user)`: runs
`SELECT author FROM prompts WHERE guid = %s` (unscoped), then subscripts
`fetchone()['author']` — when no row matched, `fetchone()` is `None` and
the subscript raises a `TypeError`, modelled as `noneSubscript`.  Otherwise
it compares the stored author to `user.username if user else None` and
raises `UnauthorizedError` on mismatch. -/
def check_prompt_ownership (db : DB) (guid : String) (user : Option User) :
    Except RepoError Unit :=
  match db.prompts.find? (fun p => p.guid == guid) with
  | none => .error .noneSubscript
  | some p =>
      if p.author ≠ user.map (fun u => u.username) then .error .unauthorized
      else .ok ()

/-- `MySQLPromptRepository.delete_prompt(guid, user)`: checks ownership,
then `DELETE FROM prompts WHERE guid = %s`, then calls
`remove_all_tags_from_prompt(guid)` — with the prompt row already gone and
the default `user=None`, in that order, exactly as the source does. -/
def delete_prompt (db : DB) (guid : String) (user : Option User) :
    Except RepoError DB :=
  match check_prompt_ownership db guid user with
  | .error e => .error e
  | .ok _ =>
      .ok (remove_all_tags_from_prompt
        { db with prompts := db.prompts.filter (fun p => !(p.guid == guid)) } guid none)

/-- `MySQLPromptRepository.get_prompt(guid, user)`: the scoped
`SELECT ... WHERE prompts.guid = %s` + ownership clause + `GROUP BY
prompts.id`; `fetchone()` takes the first matching row, `None` raises
`RecordNotFoundError`. -/
def get_prompt (db : DB) (guid : String) (user : Option User) :
    Except RepoError Prompt :=
  match db.prompts.find? (fun p => p.guid == guid && authorScope user p.author) with
  | none => .error .recordNotFound
  | some p => .ok ⟨p, tags_of_prompt_id db p.id⟩

/-- `MySQLPromptRepository.get_prompt_by_name(name, user)`: the same scoped
lookup keyed by `display_name`. -/
def get_prompt_by_name (db : DB) (name : String) (user : Option User) :
    Except RepoError Prompt :=
  match db.prompts.find? (fun p => p.display_name == name && authorScope user p.author) with
  | none => .error .recordNotFound
  | some p => .ok ⟨p, tags_of_prompt_id db p.id⟩

/-- `MySQLPromptRepository.list_prompts(user)`: every prompt row in the
caller's ownership scope, each with its aggregated tag list. -/
def list_prompts (db : DB) (user : Option User) : List Prompt :=
  (db.prompts.filter (fun p => authorScope user p.author)).map
    (fun p => ⟨p, tags_of_prompt_id db p.id⟩)

/-! ## `src/web/dependencies.py`

`authenticate_user` lives in the service layer, outside the given sources;
the two dependency functions only call it through its
username-to-optional-User interface, so it is abstracted as a function
parameter. -/

/-- `fastapi.security.HTTPBasicCredentials`: the parsed basic-auth pair. -/
structure HTTPBasicCredentials where
  username : String
  password : String
deriving Repr, DecidableEq

/-- `dependencies.require_admin_user`: resolves the username; returns the
user only when the user exists, the password matches by plaintext equality
and the username is the literal `"steve72"`; in every other case it
returns `None` (it never raises). -/
def require_admin_user (authenticate_user : String → Option User)
    (credentials : HTTPBasicCredentials) : Option User :=
  match authenticate_user credentials.username with
  | some user =>
      if credentials.password == user.password && user.username == "steve72" then
        some user
      else none
  | none => none

/-- `dependencies.require_current_user`: resolves the username; raises
`HTTPException(status_code=401)` when the user is missing or the plaintext
password comparison fails, otherwise returns the user. -/
def require_current_user (authenticate_user : String → Option User)
    (credentials : HTTPBasicCredentials) : Except Nat User :=
  match authenticate_user credentials.username with
  | none => Except.error 401
  | some user =>
      if credentials.password == user.password then Except.ok user
      else Except.error 401

/-! ## Generic list lemmas -/

theorem filter_singleton_mem {α : Type} {pred : α → Bool} {l : List α} {x : α}
    (h : l.filter pred = [x]) : x ∈ l ∧ pred x = true := by
  have hx : x ∈ l.filter pred := by rw [h]; exact List.mem_singleton_self x
  exact List.mem_filter.mp hx

theorem find_of_filter_singleton {α : Type} {pred : α → Bool} {l : List α} {x : α}
    (h : l.filter pred = [x]) : l.find? pred = some x := by
  induction l with
  | nil => simp at h
  | cons a t ih =>
    rw [List.filter_cons] at h
    by_cases hp : pred a = true
    · rw [if_pos hp] at h
      have ha : a = x := by
        have := congrArg (fun l => l.head?) h
        simpa using this
      rw [List.find?_cons_of_pos _ hp, ha]
    · rw [if_neg hp] at h
      rw [List.find?_cons_of_neg _ hp]
      exact ih h

theorem find_append_of_left_none {α : Type} {pred : α → Bool} {l₁ l₂ : List α}
    (h : ∀ y ∈ l₁, pred y = false) :
    (l₁ ++ l₂).find? pred = l₂.find? pred := by
  rw [List.find?_append]
  have h1 : l₁.find? pred = none :=
    List.find?_eq_none.mpr (fun x hx => by simp [h x hx])
  rw [h1, Option.none_or]

theorem flatMap_congr_on {α β : Type} {l : List α} {f g : α → List β}
    (h : ∀ a ∈ l, f a = g a) : l.flatMap f = l.flatMap g := by
  induction l with
  | nil => rfl
  | cons a t ih =>
    rw [List.flatMap_cons, List.flatMap_cons, h a (List.mem_cons_self a t),
      ih (fun b hb => h b (List.mem_cons_of_mem a hb))]

theorem filter_key_singleton {α β : Type} [DecidableEq β] (f : α → β)
    {l : List α} {x : α} (hnd : (l.map f).Nodup) (hx : x ∈ l) :
    l.filter (fun y => f y == f x) = [x] := by
  induction l with
  | nil => simp at hx
  | cons a t ih =>
    rw [List.map_cons, List.nodup_cons] at hnd
    obtain ⟨hna, hnt⟩ := hnd
    rw [List.filter_cons]
    by_cases hfa : f a = f x
    · have hax : x = a := by
        rcases List.mem_cons.mp hx with h | h
        · exact h
        · exact absurd (hfa ▸ List.mem_map_of_mem f h) hna
      have hempty : t.filter (fun y => f y == f x) = [] := by
        refine List.filter_eq_nil_iff.mpr (fun y hy => ?_)
        intro hcon
        have heq : f y = f x := by simpa using hcon
        exact hna (hfa ▸ heq ▸ List.mem_map_of_mem f hy)
      simp [hfa, hempty, hax]
    · have hne : (f a == f x) = false := by simpa using hfa
      have hxt : x ∈ t := by
        rcases List.mem_cons.mp hx with h | h
        · exact absurd (h ▸ rfl) (fun hc => hfa hc)
        · exact h
      simp only [hne, if_false]
      exact ih hnt hxt

theorem filter_tag_eq_singleton {l : List TagRow} {x : TagRow} {t : String}
    (hnd : (l.map TagRow.tag).Nodup) (hx : x ∈ l) (hxt : x.tag = t) :
    l.filter (fun r => r.tag == t) = [x] := by
  subst hxt
  exact filter_key_singleton TagRow.tag hnd hx

theorem filter_id_eq_singleton {l : List TagRow} {x : TagRow}
    (hnd : (l.map TagRow.id).Nodup) (hx : x ∈ l) :
    l.filter (fun r => r.id == x.id) = [x] :=
  filter_key_singleton TagRow.id hnd hx

/-! ## Basic facts about the embedded operations -/

theorem authorScope_true_iff (user : Option User) (author : Option String) :
    authorScope user author = true ↔ author = user.map (fun u => u.username) := by
  cases user <;> simp [authorScope]

/-- Schema invariant of the `tags` table: the UNIQUE constraint on `tag`,
the primary key on `id`, and the AUTO_INCREMENT counter dominating every
allocated id. -/
def TagsWF (db : DB) : Prop :=
  (db.tags.map TagRow.tag).Nodup ∧ (db.tags.map TagRow.id).Nodup ∧
  ∀ r ∈ db.tags, r.id < db.next_tag_id

instance (db : DB) : Decidable (TagsWF db) := by
  unfold TagsWF; infer_instance

theorem upsert_tag_prompts (db : DB) (t : String) :
    (upsert_tag db t).prompts = db.prompts := by
  unfold upsert_tag; split <;> rfl

theorem upsert_tag_prompt_tags (db : DB) (t : String) :
    (upsert_tag db t).prompt_tags = db.prompt_tags := by
  unfold upsert_tag; split <;> rfl

theorem upsert_tag_counter_le (db : DB) (t : String) :
    db.next_tag_id ≤ (upsert_tag db t).next_tag_id := by
  unfold upsert_tag; split
  · exact Nat.le_refl _
  · exact Nat.le_succ _

/-- Filtering the tag table by an id strictly below the counter is
unaffected by an upsert: the row an upsert may add carries the counter as
its id. -/
theorem upsert_tag_filter_id_lt (db : DB) (t : String) {tid : Nat}
    (htid : tid < db.next_tag_id) :
    (upsert_tag db t).tags.filter (fun r => r.id == tid)
      = db.tags.filter (fun r => r.id == tid) := by
  unfold upsert_tag; split
  · rfl
  · have hne : (db.next_tag_id == tid) = false := by
      simp only [beq_eq_false_iff_ne, ne_eq]
      omega
    simp [List.filter_append, List.filter_cons, hne]

/-- What an upsert guarantees: afterwards the table holds exactly one row
whose text is `t`, its id is below the (new) counter, and the schema
invariant is preserved. -/
theorem upsert_tag_spec (db : DB) (t : String) (h : TagsWF db) :
    ∃ r : TagRow, r.tag = t ∧ r.id < (upsert_tag db t).next_tag_id ∧
      (upsert_tag db t).tags.filter (fun x => x.tag == t) = [r] ∧
      TagsWF (upsert_tag db t) := by
  obtain ⟨hndt, hndi, hbound⟩ := h
  unfold upsert_tag
  split
  · rename_i hany
    obtain ⟨r, hr, hrt⟩ := List.any_eq_true.mp hany
    have hrt : r.tag = t := by simpa using hrt
    exact ⟨r, hrt, hbound r hr, filter_tag_eq_singleton hndt hr hrt, hndt, hndi, hbound⟩
  · rename_i hany
    have hnone : ∀ x ∈ db.tags, x.tag ≠ t := by
      intro x hx
      have := List.any_eq_false.mp (Bool.not_eq_true _ ▸ hany) x hx
      simpa using this
    refine ⟨⟨db.next_tag_id, t⟩, rfl, Nat.lt_succ_self _, ?_, ?_, ?_, ?_⟩
    · rw [List.filter_append]
      have h1 : db.tags.filter (fun x => x.tag == t) = [] :=
        List.filter_eq_nil_iff.mpr (fun x hx => by simp [hnone x hx])
      simp [h1]
    · rw [List.map_append, List.nodup_append]
      refine ⟨hndt, List.nodup_singleton t, fun s hs => ?_⟩
      obtain ⟨x, hx, hxe⟩ := List.mem_map.mp hs
      intro hc
      simp only [List.map_cons, List.map_nil, List.mem_singleton] at hc
      exact hnone x hx (hxe.trans hc)
    · rw [List.map_append, List.nodup_append]
      refine ⟨hndi, List.nodup_singleton _, fun s hs => ?_⟩
      obtain ⟨x, hx, hxe⟩ := List.mem_map.mp hs
      intro hc
      simp only [List.map_cons, List.map_nil, List.mem_singleton] at hc
      have := hbound x hx
      omega
    · intro r hr
      rcases List.mem_append.mp hr with h | h
      · exact Nat.lt_succ_of_lt (hbound r h)
      · simp only [List.mem_singleton] at h
        subst h
        exact Nat.lt_succ_self _

/-! ## The tag-replacement pipeline

`_update_tags` always runs in the anonymous scope (it passes no user).
The lemmas below characterise what one `add_tag_to_prompt` call and the
whole `remove-then-fold` pipeline do to the association rows of a prompt
`p` that is the unique prompt matching the anonymous scope for guid `g`. -/

theorem add_tag_unfold (db : DB) (g t : String) (u : Option User) :
    add_tag_to_prompt db g t u =
      { upsert_tag db t with
        prompt_tags := (upsert_tag db t).prompt_tags ++
          ((upsert_tag db t).prompts.filter
              (fun q => q.guid == g && authorScope u q.author)).flatMap
            (fun q => ((upsert_tag db t).tags.filter (fun x => x.tag == t)).map
              (fun x => ({ prompt_id := q.id, tag_id := x.id } : PromptTagRow))) } := rfl

theorem add_tag_prompts (db : DB) (g t : String) (u : Option User) :
    (add_tag_to_prompt db g t u).prompts = db.prompts := by
  rw [add_tag_unfold]
  exact upsert_tag_prompts db t

/-- One `add_tag_to_prompt` call in the anonymous scope, on a state where
`p` is the unique prompt in that scope with guid `g`: it appends exactly
the tag `t` to `p`'s observed tag list and preserves the invariants. -/
theorem add_tag_step (db : DB) (g t : String) (p : PromptRow)
    (hchar : db.prompts.filter (fun q => q.guid == g && authorScope none q.author) = [p])
    (htw : TagsWF db)
    (hpt : ∀ pt ∈ db.prompt_tags, pt.prompt_id = p.id → pt.tag_id < db.next_tag_id) :
    tags_of_prompt_id (add_tag_to_prompt db g t none) p.id
        = tags_of_prompt_id db p.id ++ [t]
    ∧ (add_tag_to_prompt db g t none).prompts = db.prompts
    ∧ TagsWF (add_tag_to_prompt db g t none)
    ∧ (∀ pt ∈ (add_tag_to_prompt db g t none).prompt_tags, pt.prompt_id = p.id →
         pt.tag_id < (add_tag_to_prompt db g t none).next_tag_id) := by
  obtain ⟨r, hrt, hrlt, hrfilter, htw1⟩ := upsert_tag_spec db t htw
  have hps : (upsert_tag db t).prompts = db.prompts := upsert_tag_prompts db t
  have hpts : (upsert_tag db t).prompt_tags = db.prompt_tags := upsert_tag_prompt_tags db t
  have hle : db.next_tag_id ≤ (upsert_tag db t).next_tag_id := upsert_tag_counter_le db t
  have hrmem : r ∈ (upsert_tag db t).tags := (filter_singleton_mem hrfilter).1
  have hridsingle : (upsert_tag db t).tags.filter (fun x => x.id == r.id) = [r] :=
    filter_id_eq_singleton htw1.2.1 hrmem
  have hlinked :
      ((upsert_tag db t).prompts.filter
          (fun q => q.guid == g && authorScope none q.author)).flatMap
        (fun q => ((upsert_tag db t).tags.filter (fun x => x.tag == t)).map
          (fun x => ({ prompt_id := q.id, tag_id := x.id } : PromptTagRow)))
      = [⟨p.id, r.id⟩] := by
    rw [hps, hchar, hrfilter]
    simp
  refine ⟨?_, ?_, ?_, ?_⟩
  · have hform : tags_of_prompt_id (add_tag_to_prompt db g t none) p.id
        = (((upsert_tag db t).prompt_tags ++
            ((upsert_tag db t).prompts.filter
                (fun q => q.guid == g && authorScope none q.author)).flatMap
              (fun q => ((upsert_tag db t).tags.filter (fun x => x.tag == t)).map
                (fun x => ({ prompt_id := q.id, tag_id := x.id } : PromptTagRow)))).filter
            (fun pt => pt.prompt_id == p.id)).flatMap
          (fun pt => ((upsert_tag db t).tags.filter (fun x => x.id == pt.tag_id)).map
            (fun x => x.tag)) := rfl
    rw [hform, hlinked, hpts, List.filter_append, List.flatMap_append]
    have hnew : ([(⟨p.id, r.id⟩ : PromptTagRow)].filter
        (fun pt => pt.prompt_id == p.id)).flatMap
          (fun pt => ((upsert_tag db t).tags.filter (fun x => x.id == pt.tag_id)).map
            (fun x => x.tag)) = [t] := by
      simp [hridsingle, hrt]
    rw [hnew]
    have hold : (db.prompt_tags.filter (fun pt => pt.prompt_id == p.id)).flatMap
          (fun pt => ((upsert_tag db t).tags.filter (fun x => x.id == pt.tag_id)).map
            (fun x => x.tag))
        = tags_of_prompt_id db p.id := by
      unfold tags_of_prompt_id
      refine flatMap_congr_on (fun pt hptm => ?_)
      obtain ⟨hptmem, hpteq⟩ := List.mem_filter.mp hptm
      have hpe : pt.prompt_id = p.id := by simpa using hpteq
      rw [upsert_tag_filter_id_lt db t (hpt pt hptmem hpe)]
    rw [hold]
  · exact add_tag_prompts db g t none
  · exact htw1
  · intro pt hptm hpe
    rw [add_tag_unfold] at hptm
    simp only [List.mem_append] at hptm
    rcases hptm with h | h
    · rw [hpts] at h
      exact Nat.lt_of_lt_of_le (hpt pt h hpe) hle
    · rw [hlinked] at h
      simp only [List.mem_singleton] at h
      subst h
      exact hrlt

/-- Folding `add_tag_to_prompt` (anonymous scope) over a tag list appends
exactly that list to `p`'s observed tags. -/
theorem fold_add_tags (g : String) (p : PromptRow) (T : List String) :
    ∀ db : DB,
      db.prompts.filter (fun q => q.guid == g && authorScope none q.author) = [p] →
      TagsWF db →
      (∀ pt ∈ db.prompt_tags, pt.prompt_id = p.id → pt.tag_id < db.next_tag_id) →
      tags_of_prompt_id (T.foldl (fun d t => add_tag_to_prompt d g t none) db) p.id
          = tags_of_prompt_id db p.id ++ T
      ∧ (T.foldl (fun d t => add_tag_to_prompt d g t none) db).prompts = db.prompts
      ∧ TagsWF (T.foldl (fun d t => add_tag_to_prompt d g t none) db) := by
  induction T with
  | nil =>
    intro db h1 h2 h3
    exact ⟨by simp, rfl, h2⟩
  | cons t T ih =>
    intro db h1 h2 h3
    obtain ⟨hstep1, hstep2, hstep3, hstep4⟩ := add_tag_step db g t p h1 h2 h3
    have h1x : (add_tag_to_prompt db g t none).prompts.filter
        (fun q => q.guid == g && authorScope none q.author) = [p] := by
      rw [hstep2]; exact h1
    obtain ⟨ihEq, ihP, ihW⟩ := ih (add_tag_to_prompt db g t none) h1x hstep3 hstep4
    rw [List.foldl_cons]
    refine ⟨?_, ?_, ihW⟩
    · rw [ihEq, hstep1, List.append_assoc]
      rfl
    · rw [ihP, hstep2]

/-- When no prompt matches the anonymous scope for guid `g`, an
`add_tag_to_prompt` fold may grow the tag table but links nothing. -/
theorem fold_add_empty_scope (g : String) (T : List String) :
    ∀ db : DB,
      db.prompts.filter (fun q => q.guid == g && authorScope none q.author) = [] →
      (T.foldl (fun d t => add_tag_to_prompt d g t none) db).prompt_tags = db.prompt_tags
      ∧ (T.foldl (fun d t => add_tag_to_prompt d g t none) db).prompts = db.prompts := by
  induction T with
  | nil =>
    intro db h
    exact ⟨rfl, rfl⟩
  | cons t T ih =>
    intro db h
    have hstepP : (add_tag_to_prompt db g t none).prompts = db.prompts :=
      add_tag_prompts db g t none
    have hstepT : (add_tag_to_prompt db g t none).prompt_tags = db.prompt_tags := by
      rw [add_tag_unfold]
      show (upsert_tag db t).prompt_tags ++ _ = db.prompt_tags
      rw [upsert_tag_prompts db t, h]
      simp [upsert_tag_prompt_tags db t]
    have hx : (add_tag_to_prompt db g t none).prompts.filter
        (fun q => q.guid == g && authorScope none q.author) = [] := by
      rw [hstepP]; exact h
    obtain ⟨ih1, ih2⟩ := ih (add_tag_to_prompt db g t none) hx
    rw [List.foldl_cons]
    exact ⟨ih1.trans hstepT, ih2.trans hstepP⟩

theorem remove_all_prompts (db : DB) (g : String) (u : Option User) :
    (remove_all_tags_from_prompt db g u).prompts = db.prompts := rfl

/-- After `remove_all_tags_from_prompt(guid)` (anonymous scope), a prompt
`p` that is the unique anonymous-scope match for `g` has no association
rows left. -/
theorem remove_all_none_clears (db : DB) (g : String) (p : PromptRow)
    (hchar : db.prompts.filter (fun q => q.guid == g && authorScope none q.author) = [p]) :
    (remove_all_tags_from_prompt db g none).prompt_tags.filter
        (fun pt => pt.prompt_id == p.id) = [] := by
  obtain ⟨hpmem, hppred⟩ := filter_singleton_mem hchar
  rw [Bool.and_eq_true] at hppred
  obtain ⟨hg, ha⟩ := hppred
  refine List.filter_eq_nil_iff.mpr (fun pt hpt => ?_)
  intro hpid
  have h1 : pt.prompt_id = p.id := by simpa using hpid
  have hsurv := (List.mem_filter.mp hpt).2
  have hany : (db.prompts.any fun q =>
      q.id == pt.prompt_id && q.guid == g && authorScope none q.author) = true := by
    refine List.any_eq_true.mpr ⟨p, hpmem, ?_⟩
    simp [h1, hg, ha]
  rw [hany] at hsurv
  simp at hsurv

/-- When no prompt matches the anonymous scope for guid `g`,
`remove_all_tags_from_prompt(guid)` removes nothing at all. -/
theorem remove_all_none_noop (db : DB) (g : String)
    (hchar : db.prompts.filter (fun q => q.guid == g && authorScope none q.author) = []) :
    remove_all_tags_from_prompt db g none = db := by
  have hall : ∀ q ∈ db.prompts, (q.guid == g && authorScope none q.author) = false := by
    intro q hq
    have := List.filter_eq_nil_iff.mp hchar q hq
    simpa using this
  unfold remove_all_tags_from_prompt
  have hkeep : db.prompt_tags.filter (fun pt => !db.prompts.any fun q =>
      q.id == pt.prompt_id && q.guid == g && authorScope none q.author) = db.prompt_tags := by
    refine List.filter_eq_self.mpr (fun pt hpt => ?_)
    rw [Bool.not_eq_true']
    refine List.any_eq_false.mpr (fun q hq => ?_)
    rw [Bool.and_assoc]
    simp [hall q hq]
  rw [hkeep]

/-- The full `_update_tags` pipeline on the unique anonymous-scope prompt
`p` with guid `g`: afterwards the observed tag list is exactly the given
list, the prompt table is untouched and the tag-table invariant is kept. -/
theorem update_tags_spec (db : DB) (g : String) (T : List String) (p : PromptRow)
    (hchar : db.prompts.filter (fun q => q.guid == g && authorScope none q.author) = [p])
    (htw : TagsWF db) :
    tags_of_prompt_id (update_tags db g T) p.id = T
    ∧ (update_tags db g T).prompts = db.prompts
    ∧ TagsWF (update_tags db g T) := by
  unfold update_tags
  have hchar1 : (remove_all_tags_from_prompt db g none).prompts.filter
      (fun q => q.guid == g && authorScope none q.author) = [p] := hchar
  have htw1 : TagsWF (remove_all_tags_from_prompt db g none) := htw
  have hclear : (remove_all_tags_from_prompt db g none).prompt_tags.filter
      (fun pt => pt.prompt_id == p.id) = [] :=
    remove_all_none_clears db g p hchar
  have hpt1 : ∀ pt ∈ (remove_all_tags_from_prompt db g none).prompt_tags,
      pt.prompt_id = p.id →
      pt.tag_id < (remove_all_tags_from_prompt db g none).next_tag_id := by
    intro pt hpt hpe
    have := List.filter_eq_nil_iff.mp hclear pt hpt
    simp [hpe] at this
  obtain ⟨hEq, hP, hW⟩ :=
    fold_add_tags g p T (remove_all_tags_from_prompt db g none) hchar1 htw1 hpt1
  have hbase : tags_of_prompt_id (remove_all_tags_from_prompt db g none) p.id = [] := by
    unfold tags_of_prompt_id
    rw [hclear]
    rfl
  exact ⟨by rw [hEq, hbase]; rfl, hP, hW⟩

/-! ## `update_prompt` and `create_prompt` characterisations -/

theorem fold_add_prompts (g : String) (T : List String) :
    ∀ db : DB, (T.foldl (fun d t => add_tag_to_prompt d g t none) db).prompts = db.prompts := by
  induction T with
  | nil => intro db; rfl
  | cons t T ih =>
    intro db
    rw [List.foldl_cons]
    exact (ih (add_tag_to_prompt db g t none)).trans (add_tag_prompts db g t none)

theorem update_tags_prompts (db : DB) (g : String) (T : List String) :
    (update_tags db g T).prompts = db.prompts := by
  unfold update_tags
  exact fold_add_prompts g T (remove_all_tags_from_prompt db g none)

theorem update_prompt_prompts (db : DB) (pu : PromptUpdate) (user : Option User) :
    (update_prompt db pu user).prompts = db.prompts.map (fun q =>
      if q.guid == pu.guid then
        { q with content := pu.content, display_name := pu.display_name,
                 author := user.map (fun u => u.username) }
      else q) := by
  unfold update_prompt
  exact update_tags_prompts _ pu.guid pu.tags

theorem get_prompt_eq_of_find (db : DB) (g : String) (u : Option User) (p : PromptRow)
    (h : db.prompts.find? (fun q => q.guid == g && authorScope u q.author) = some p) :
    get_prompt db g u = Except.ok ⟨p, tags_of_prompt_id db p.id⟩ := by
  unfold get_prompt
  rw [h]

theorem get_prompt_eq_of_find_none (db : DB) (g : String) (u : Option User)
    (h : db.prompts.find? (fun q => q.guid == g && authorScope u q.author) = none) :
    get_prompt db g u = Except.error RepoError.recordNotFound := by
  unfold get_prompt
  rw [h]

/-- The `UPDATE prompts SET ...` row function preserves the guid column. -/
theorem update_row_fun_guid (pu : PromptUpdate) (user : Option User) (q : PromptRow) :
    ((if q.guid == pu.guid then
        { q with content := pu.content, display_name := pu.display_name,
                 author := user.map (fun u => u.username) }
      else q) : PromptRow).guid = q.guid := by
  by_cases h : (q.guid == pu.guid) = true
  · rw [if_pos h]
  · rw [if_neg h]

/-- After the `UPDATE` row map, the unique row with the target guid is the
updated row. -/
theorem map_update_filter_guid (db : DB) (pu : PromptUpdate) (user : Option User)
    (p : PromptRow)
    (hchar : db.prompts.filter (fun q => q.guid == pu.guid) = [p]) :
    (db.prompts.map (fun q =>
        if q.guid == pu.guid then
          { q with content := pu.content, display_name := pu.display_name,
                   author := user.map (fun u => u.username) }
        else q)).filter (fun q => q.guid == pu.guid)
      = [⟨p.id, pu.guid, pu.content, pu.display_name,
          user.map (fun u => u.username)⟩] := by
  obtain ⟨hpmem, hppred⟩ := filter_singleton_mem hchar
  have hgu : p.guid = pu.guid := by simpa using hppred
  rw [List.filter_map]
  have hcomp : ((fun q : PromptRow => q.guid == pu.guid) ∘ (fun q : PromptRow =>
      if q.guid == pu.guid then
        { q with content := pu.content, display_name := pu.display_name,
                 author := user.map (fun u => u.username) }
      else q)) = (fun q : PromptRow => q.guid == pu.guid) := by
    funext q
    simp only [Function.comp_apply]
    rw [update_row_fun_guid]
  rw [hcomp, hchar]
  simp only [List.map_cons, List.map_nil]
  rw [if_pos hppred]
  simp [hgu]

/-- After an anonymous-context `UPDATE` row map, the unique anonymous-scope
row with the target guid is the updated (now anonymous) row. -/
theorem map_update_filter_scope_none (db : DB) (pu : PromptUpdate) (p : PromptRow)
    (hchar : db.prompts.filter (fun q => q.guid == pu.guid) = [p]) :
    (db.prompts.map (fun q =>
        if q.guid == pu.guid then
          { q with content := pu.content, display_name := pu.display_name,
                   author := (none : Option User).map (fun u => u.username) }
        else q)).filter (fun q => q.guid == pu.guid && authorScope none q.author)
      = [⟨p.id, pu.guid, pu.content, pu.display_name, none⟩] := by
  obtain ⟨hpmem, hppred⟩ := filter_singleton_mem hchar
  have hgu : p.guid = pu.guid := by simpa using hppred
  rw [List.filter_map]
  have hcomp : ((fun q : PromptRow => q.guid == pu.guid && authorScope none q.author)
      ∘ (fun q : PromptRow =>
        if q.guid == pu.guid then
          { q with content := pu.content, display_name := pu.display_name,
                   author := (none : Option User).map (fun u => u.username) }
        else q)) = (fun q : PromptRow => q.guid == pu.guid) := by
    funext q
    simp only [Function.comp_apply]
    by_cases h : (q.guid == pu.guid) = true
    · rw [if_pos h]
      simp [authorScope, h]
    · rw [if_neg h]
      simp [h]
  rw [hcomp, hchar]
  simp only [List.map_cons, List.map_nil]
  rw [if_pos hppred]
  simp [hgu]

/-- Anonymous-context `update_prompt` on a unique-guid target: the row is
rewritten (author cleared to NULL), the tag set is fully replaced, and a
subsequent anonymous `get_prompt` observes exactly the new tag list.  The
resulting state again satisfies the hypotheses, which yields idempotence. -/
theorem update_prompt_none_spec (db : DB) (pu : PromptUpdate) (p : PromptRow)
    (hchar : db.prompts.filter (fun q => q.guid == pu.guid) = [p])
    (htw : TagsWF db) :
    get_prompt (update_prompt db pu none) pu.guid none
      = Except.ok ⟨⟨p.id, pu.guid, pu.content, pu.display_name, none⟩, pu.tags⟩
    ∧ (update_prompt db pu none).prompts.filter (fun q => q.guid == pu.guid)
      = [⟨p.id, pu.guid, pu.content, pu.display_name, none⟩]
    ∧ TagsWF (update_prompt db pu none) := by
  have hunf : update_prompt db pu none = update_tags
      { db with prompts := db.prompts.map (fun q =>
          if q.guid == pu.guid then
            { q with content := pu.content, display_name := pu.display_name,
                     author := (none : Option User).map (fun u => u.username) }
          else q) } pu.guid pu.tags := rfl
  have hchar1 : ({ db with prompts := db.prompts.map (fun q =>
      if q.guid == pu.guid then
        { q with content := pu.content, display_name := pu.display_name,
                 author := (none : Option User).map (fun u => u.username) }
      else q) } : DB).prompts.filter
        (fun q => q.guid == pu.guid && authorScope none q.author)
      = [⟨p.id, pu.guid, pu.content, pu.display_name, none⟩] :=
    map_update_filter_scope_none db pu p hchar
  have htw1 : TagsWF ({ db with prompts := db.prompts.map (fun q =>
      if q.guid == pu.guid then
        { q with content := pu.content, display_name := pu.display_name,
                 author := (none : Option User).map (fun u => u.username) }
      else q) } : DB) := htw
  obtain ⟨hEq, hP, hW⟩ := update_tags_spec _ pu.guid pu.tags
    ⟨p.id, pu.guid, pu.content, pu.display_name, none⟩ hchar1 htw1
  refine ⟨?_, ?_, ?_⟩
  · rw [hunf]
    have hfind : (update_tags
        ({ db with prompts := db.prompts.map (fun q =>
            if q.guid == pu.guid then
              { q with content := pu.content, display_name := pu.display_name,
                       author := (none : Option User).map (fun u => u.username) }
            else q) } : DB) pu.guid pu.tags).prompts.find?
        (fun q => q.guid == pu.guid && authorScope none q.author)
        = some ⟨p.id, pu.guid, pu.content, pu.display_name, none⟩ := by
      rw [hP]
      exact find_of_filter_singleton hchar1
    rw [get_prompt_eq_of_find _ _ _ _ hfind, hEq]
  · rw [update_prompt_prompts db pu none]
    exact map_update_filter_guid db pu none p hchar
  · rw [hunf]
    exact hW

/-! ## Concrete states used by the witnesses and counterexamples -/

/-- A fresh database (both AUTO_INCREMENT counters at 1, as MySQL starts). -/
def emptyDB : DB := ⟨[], [], [], 1, 1⟩

/-- The state reached by an anonymous `create_prompt` of prompt "g" with
content "c", display name "n" and the single tag "a". -/
def dbAnonTagged : DB :=
  ⟨[⟨1, "g", "c", "n", none⟩], [⟨1, "a"⟩], [⟨1, 1⟩], 2, 2⟩

def alice : User := ⟨"alice", "pw", "k"⟩

def bob : User := ⟨"bob", "pw2", "k2"⟩

/-- A state holding one prompt "g" owned by alice and tagged "x". -/
def dbAliceTagged : DB :=
  ⟨[⟨1, "g", "c", "n", some "alice"⟩], [⟨1, "x"⟩], [⟨1, 1⟩], 2, 2⟩

/-! ## The claims -/

/-- Claim C4: for every guid and every context whose null-safe username
differs from the author of every row carrying that guid (in particular when
no row carries it), `get_prompt` raises RecordNotFound — an out-of-scope
guid is indistinguishable from a nonexistent one. -/
theorem get_prompt_out_of_scope_not_found (db : DB) (guid : String) (user : Option User)
    (h : ∀ p ∈ db.prompts, p.guid = guid → p.author ≠ user.map (fun u => u.username)) :
    get_prompt db guid user = Except.error RepoError.recordNotFound := by
  refine get_prompt_eq_of_find_none db guid user ?_
  refine List.find?_eq_none.mpr (fun p hp => ?_)
  intro hcon
  rw [Bool.and_eq_true] at hcon
  obtain ⟨hg, ha⟩ := hcon
  exact h p hp (by simpa using hg) ((authorScope_true_iff user p.author).mp ha)

/-- Witness for C4: alice's prompt "g" is invisible to bob's context. -/
theorem get_prompt_out_of_scope_not_found_witness :
    (∀ p ∈ dbAliceTagged.prompts, p.guid = "g" →
      p.author ≠ (some bob).map (fun u => u.username))
    ∧ get_prompt dbAliceTagged "g" (some bob) = Except.error RepoError.recordNotFound :=
  ⟨by decide, get_prompt_out_of_scope_not_found dbAliceTagged "g" (some bob) (by decide)⟩

/-- Claim C5: `delete_prompt` on an existing prompt whose current author
differs null-safely from the acting context's username raises Unauthorized;
the ownership check runs before either DELETE statement, so the error
result carries no mutated state. -/
theorem delete_prompt_wrong_owner_unauthorized (db : DB) (guid : String)
    (user : Option User) (p : PromptRow)
    (hfind : db.prompts.find? (fun q => q.guid == guid) = some p)
    (hne : p.author ≠ user.map (fun u => u.username)) :
    delete_prompt db guid user = Except.error RepoError.unauthorized := by
  have hchk : check_prompt_ownership db guid user = .error .unauthorized := by
    unfold check_prompt_ownership
    rw [hfind]
    exact if_pos hne
  unfold delete_prompt
  rw [hchk]

/-- Witness for C5: the anonymous context cannot delete alice's prompt. -/
theorem delete_prompt_wrong_owner_unauthorized_witness :
    dbAliceTagged.prompts.find? (fun q => q.guid == "g")
      = some ⟨1, "g", "c", "n", some "alice"⟩
    ∧ (some "alice" : Option String) ≠ (none : Option User).map (fun u => u.username)
    ∧ delete_prompt dbAliceTagged "g" none = Except.error RepoError.unauthorized :=
  ⟨by decide, by decide,
    delete_prompt_wrong_owner_unauthorized dbAliceTagged "g" none
      ⟨1, "g", "c", "n", some "alice"⟩ (by decide) (by decide)⟩

/-- Claim C6: for every existing prompt with the target guid and every
acting context (owner or not — no hypothesis about the prior author is
needed), `update_prompt` leaves in the table the row with the new content
and display_name and with author reassigned to the acting context's
username (or NULL): ownership can be transferred or cleared silently. -/
theorem update_prompt_reassigns_author_without_check (db : DB) (pu : PromptUpdate)
    (user : Option User) (q : PromptRow)
    (hq : q ∈ db.prompts) (hg : q.guid = pu.guid) :
    ({ q with content := pu.content, display_name := pu.display_name,
              author := user.map (fun u => u.username) } : PromptRow)
      ∈ (update_prompt db pu user).prompts := by
  rw [update_prompt_prompts]
  refine List.mem_map.mpr ⟨q, hq, ?_⟩
  rw [if_pos (by simpa using hg : (q.guid == pu.guid) = true)]

/-- Witness for C6: an anonymous update of alice's prompt clears its
ownership. -/
theorem update_prompt_reassigns_author_without_check_witness :
    (⟨1, "g", "c", "n", some "alice"⟩ : PromptRow) ∈ dbAliceTagged.prompts
    ∧ (⟨1, "g", "c", "n", some "alice"⟩ : PromptRow).guid
        = (⟨"c2", "n2", [], "g"⟩ : PromptUpdate).guid
    ∧ (⟨1, "g", "c2", "n2", none⟩ : PromptRow)
        ∈ (update_prompt dbAliceTagged ⟨"c2", "n2", [], "g"⟩ none).prompts :=
  ⟨by decide, by decide,
    update_prompt_reassigns_author_without_check dbAliceTagged ⟨"c2", "n2", [], "g"⟩
      none ⟨1, "g", "c", "n", some "alice"⟩ (by decide) (by decide)⟩

theorem upsert_tag_of_present (db : DB) (t : String)
    (h : db.tags.any (fun r => r.tag == t) = true) : upsert_tag db t = db := by
  unfold upsert_tag
  rw [if_pos h]

theorem upsert_tag_makes_present (db : DB) (t : String) :
    (upsert_tag db t).tags.any (fun r => r.tag == t) = true := by
  unfold upsert_tag
  split
  · rename_i h; exact h
  · simp [List.any_append]

/-- Claim C7: upserting the same tag text twice leaves exactly one row for
it in the tag table — the second upsert is a no-op on the table (and, being
modelled as a total function, never errors on the duplicate).  The UNIQUE
constraint on existing rows is the hypothesis. -/
theorem upsert_tag_idempotent_single_row (db : DB) (t : String)
    (hnd : (db.tags.map TagRow.tag).Nodup) :
    upsert_tag (upsert_tag db t) t = upsert_tag db t
    ∧ ((upsert_tag db t).tags.filter (fun r => r.tag == t)).length = 1 := by
  constructor
  · exact upsert_tag_of_present (upsert_tag db t) t (upsert_tag_makes_present db t)
  · by_cases h : db.tags.any (fun r => r.tag == t) = true
    · rw [upsert_tag_of_present db t h]
      obtain ⟨r, hr, hrt⟩ := List.any_eq_true.mp h
      rw [filter_tag_eq_singleton hnd hr (by simpa using hrt)]
      rfl
    · unfold upsert_tag
      rw [if_neg h]
      show ((db.tags ++ [(⟨db.next_tag_id, t⟩ : TagRow)]).filter
        (fun r => r.tag == t)).length = 1
      rw [List.filter_append]
      have hfalse : (db.tags.any fun r => r.tag == t) = false := by
        simpa using h
      have h0 : db.tags.filter (fun r => r.tag == t) = [] :=
        List.filter_eq_nil_iff.mpr (fun r hr => List.any_eq_false.mp hfalse r hr)
      simp [h0]

/-- Witness for C7: upserting "a" twice into the empty table. -/
theorem upsert_tag_idempotent_single_row_witness :
    (emptyDB.tags.map TagRow.tag).Nodup
    ∧ upsert_tag (upsert_tag emptyDB "a") "a" = upsert_tag emptyDB "a"
    ∧ ((upsert_tag emptyDB "a").tags.filter (fun r => r.tag == "a")).length = 1 :=
  ⟨by decide,
    (upsert_tag_idempotent_single_row emptyDB "a" (by decide)).1,
    (upsert_tag_idempotent_single_row emptyDB "a" (by decide)).2⟩

/-- Claim C8: every prompt returned by `list_prompts` has author equal to
the caller's username (or NULL for the anonymous caller) — nothing outside
the caller's ownership scope is ever listed. -/
theorem list_prompts_only_own_scope (db : DB) (user : Option User) (pr : Prompt)
    (h : pr ∈ list_prompts db user) :
    pr.row.author = user.map (fun u => u.username) := by
  unfold list_prompts at h
  obtain ⟨p, hp, hpe⟩ := List.mem_map.mp h
  have hscope := (List.mem_filter.mp hp).2
  rw [← hpe]
  exact (authorScope_true_iff user p.author).mp hscope

/-- Witness for C8: alice's listing contains her prompt, whose author is
her username. -/
theorem list_prompts_only_own_scope_witness :
    (⟨⟨1, "g", "c", "n", some "alice"⟩, ["x"]⟩ : Prompt)
      ∈ list_prompts dbAliceTagged (some alice)
    ∧ (⟨⟨1, "g", "c", "n", some "alice"⟩, ["x"]⟩ : Prompt).row.author
      = (some alice).map (fun u => u.username) :=
  ⟨by decide,
    list_prompts_only_own_scope dbAliceTagged (some alice)
      ⟨⟨1, "g", "c", "n", some "alice"⟩, ["x"]⟩ (by decide)⟩

/-- Claim C9: deleting a guid that matches no prompt row neither raises
RecordNotFound nor Unauthorized: `_check_prompt_ownership` subscripts the
`None` returned by `fetchone()`, an unhandled runtime `TypeError` outside
the specified error taxonomy (modelled as `noneSubscript`). -/
theorem delete_prompt_missing_guid_crashes (db : DB) (guid : String) (user : Option User)
    (h : ∀ p ∈ db.prompts, p.guid ≠ guid) :
    delete_prompt db guid user = Except.error RepoError.noneSubscript
    ∧ delete_prompt db guid user ≠ Except.error RepoError.recordNotFound
    ∧ delete_prompt db guid user ≠ Except.error RepoError.unauthorized := by
  have hfind : db.prompts.find? (fun q => q.guid == guid) = none :=
    List.find?_eq_none.mpr (fun p hp => by simp [h p hp])
  have hchk : check_prompt_ownership db guid user = .error .noneSubscript := by
    unfold check_prompt_ownership
    rw [hfind]
  have hmain : delete_prompt db guid user = .error .noneSubscript := by
    unfold delete_prompt
    rw [hchk]
  exact ⟨hmain, by rw [hmain]; simp, by rw [hmain]; simp⟩

/-- Witness for C9: deleting from the empty database. -/
theorem delete_prompt_missing_guid_crashes_witness :
    (∀ p ∈ emptyDB.prompts, p.guid ≠ "nope")
    ∧ delete_prompt emptyDB "nope" (some alice) = Except.error RepoError.noneSubscript
    ∧ delete_prompt emptyDB "nope" (some alice) ≠ Except.error RepoError.recordNotFound
    ∧ delete_prompt emptyDB "nope" (some alice) ≠ Except.error RepoError.unauthorized :=
  ⟨by decide, delete_prompt_missing_guid_crashes emptyDB "nope" (some alice) (by decide)⟩

/-- Claim C1 (code bug evidence): deleting the anonymous owner's prompt "g"
removes the prompt row — so the subsequent `get_prompt` does raise
RecordNotFound — but the association row survives as an orphan: the prompt
row is deleted first, and `remove_all_tags_from_prompt` then inner-joins
the `prompts` table, matching nothing.  This contradicts the claim that
`delete` removes every association row of the prompt. -/
theorem delete_prompt_orphans_associations :
    delete_prompt dbAnonTagged "g" none
      = Except.ok ⟨[], [⟨1, "a"⟩], [⟨1, 1⟩], 2, 2⟩
    ∧ get_prompt (⟨[], [⟨1, "a"⟩], [⟨1, 1⟩], 2, 2⟩ : DB) "g" none
      = Except.error RepoError.recordNotFound := by
  constructor
  · decide
  · decide

/-- Counterexample for claim C2: creating a prompt **as alice** with tag
list `["a"]` yields a prompt whose observed tag set is empty — the tags
were never linked, because `_update_tags` calls `add_tag_to_prompt`
without a user, so the association INSERT is scoped to `author IS NULL`
and matches nothing. -/
theorem create_prompt_authenticated_drops_tags :
    get_prompt (create_prompt emptyDB "g" "c" "n" ["a"] (some alice)).1 "g" (some alice)
      = Except.ok ⟨⟨1, "g", "c", "n", some "alice"⟩, []⟩
    ∧ ([] : List String) ≠ ["a"] := by
  constructor
  · decide
  · decide

/-- Claim C2 (amended): `create_prompt` inserts a row with author equal to
the context's username (or NULL) and returns the guid; the tag linking,
however, always runs in the anonymous scope, so when the author context is
absent `get` on the new guid observes exactly the given tag list, and when
an authenticated author context is present no tag is linked and `get`
observes the empty tag list.  Hypotheses: the generated guid is fresh, no
association row already carries the next surrogate id, and the tag table
satisfies its schema invariant. -/
theorem create_prompt_scoped_tag_linking (db : DB) (g content display_name : String)
    (T : List String) (author : Option User)
    (hfresh : ∀ q ∈ db.prompts, q.guid ≠ g)
    (hpt : ∀ pt ∈ db.prompt_tags, pt.prompt_id ≠ db.next_prompt_id)
    (htw : TagsWF db) :
    (create_prompt db g content display_name T author).2 = g
    ∧ get_prompt (create_prompt db g content display_name T author).1 g author
      = Except.ok ⟨⟨db.next_prompt_id, g, content, display_name,
            author.map (fun u => u.username)⟩,
          if author.isNone then T else []⟩ := by
  refine ⟨rfl, ?_⟩
  have hfreshb : ∀ q ∈ db.prompts, (q.guid == g) = false := by
    intro q hq
    simpa using hfresh q hq
  cases author with
  | none =>
    have hunf : (create_prompt db g content display_name T none).1 = update_tags
        ({ db with
            prompts := db.prompts ++ [⟨db.next_prompt_id, g, content, display_name,
              (none : Option User).map (fun u => u.username)⟩],
            next_prompt_id := db.next_prompt_id + 1 } : DB) g T := rfl
    have hchar1 : ({ db with
        prompts := db.prompts ++ [⟨db.next_prompt_id, g, content, display_name,
          (none : Option User).map (fun u => u.username)⟩],
        next_prompt_id := db.next_prompt_id + 1 } : DB).prompts.filter
          (fun q => q.guid == g && authorScope none q.author)
        = [⟨db.next_prompt_id, g, content, display_name, none⟩] := by
      show (db.prompts ++ [(⟨db.next_prompt_id, g, content, display_name, none⟩ :
          PromptRow)]).filter (fun q => q.guid == g && authorScope none q.author) = _
      rw [List.filter_append]
      have h1 : db.prompts.filter (fun q => q.guid == g && authorScope none q.author)
          = [] := by
        refine List.filter_eq_nil_iff.mpr (fun q hq => ?_)
        simp [hfreshb q hq]
      rw [h1]
      simp [authorScope]
    obtain ⟨hEq, hP, hW⟩ := update_tags_spec _ g T
      ⟨db.next_prompt_id, g, content, display_name, none⟩ hchar1 htw
    rw [hunf]
    have hfind : (update_tags ({ db with
        prompts := db.prompts ++ [⟨db.next_prompt_id, g, content, display_name,
          (none : Option User).map (fun u => u.username)⟩],
        next_prompt_id := db.next_prompt_id + 1 } : DB) g T).prompts.find?
          (fun q => q.guid == g && authorScope none q.author)
        = some ⟨db.next_prompt_id, g, content, display_name, none⟩ := by
      rw [hP]
      exact find_of_filter_singleton hchar1
    rw [get_prompt_eq_of_find _ _ _ _ hfind, hEq]
    simp
  | some u =>
    have hunf : (create_prompt db g content display_name T (some u)).1 = update_tags
        ({ db with
            prompts := db.prompts ++ [⟨db.next_prompt_id, g, content, display_name,
              (some u : Option User).map (fun v => v.username)⟩],
            next_prompt_id := db.next_prompt_id + 1 } : DB) g T := rfl
    have hempty : ({ db with
        prompts := db.prompts ++ [⟨db.next_prompt_id, g, content, display_name,
          (some u : Option User).map (fun v => v.username)⟩],
        next_prompt_id := db.next_prompt_id + 1 } : DB).prompts.filter
          (fun q => q.guid == g && authorScope none q.author) = [] := by
      show (db.prompts ++ [(⟨db.next_prompt_id, g, content, display_name,
          some u.username⟩ : PromptRow)]).filter
            (fun q => q.guid == g && authorScope none q.author) = []
      rw [List.filter_append]
      have h1 : db.prompts.filter (fun q => q.guid == g && authorScope none q.author)
          = [] := by
        refine List.filter_eq_nil_iff.mpr (fun q hq => ?_)
        simp [hfreshb q hq]
      rw [h1]
      simp [authorScope]
    rw [hunf]
    unfold update_tags
    rw [remove_all_none_noop _ g hempty]
    obtain ⟨hT, hPm⟩ := fold_add_empty_scope g T _ hempty
    have hfind : (T.foldl (fun d t => add_tag_to_prompt d g t none)
        ({ db with
            prompts := db.prompts ++ [⟨db.next_prompt_id, g, content, display_name,
              (some u : Option User).map (fun v => v.username)⟩],
            next_prompt_id := db.next_prompt_id + 1 } : DB)).prompts.find?
          (fun q => q.guid == g && authorScope (some u) q.author)
        = some ⟨db.next_prompt_id, g, content, display_name, some u.username⟩ := by
      rw [hPm]
      show (db.prompts ++ [(⟨db.next_prompt_id, g, content, display_name,
          some u.username⟩ : PromptRow)]).find?
            (fun q => q.guid == g && authorScope (some u) q.author) = _
      rw [find_append_of_left_none (fun q hq => by simp [hfreshb q hq])]
      rw [List.find?_cons_of_pos _ (by simp [authorScope])]
    rw [get_prompt_eq_of_find _ _ _ _ hfind]
    have hobs : tags_of_prompt_id (T.foldl (fun d t => add_tag_to_prompt d g t none)
        ({ db with
            prompts := db.prompts ++ [⟨db.next_prompt_id, g, content, display_name,
              (some u : Option User).map (fun v => v.username)⟩],
            next_prompt_id := db.next_prompt_id + 1 } : DB))
        (⟨db.next_prompt_id, g, content, display_name, some u.username⟩ :
          PromptRow).id = [] := by
      unfold tags_of_prompt_id
      rw [hT]
      have hflt : ({ db with
          prompts := db.prompts ++ [⟨db.next_prompt_id, g, content, display_name,
            (some u : Option User).map (fun v => v.username)⟩],
          next_prompt_id := db.next_prompt_id + 1 } : DB).prompt_tags.filter
            (fun pt => pt.prompt_id ==
              (⟨db.next_prompt_id, g, content, display_name, some u.username⟩ :
                PromptRow).id) = [] := by
        show db.prompt_tags.filter (fun pt => pt.prompt_id == db.next_prompt_id) = []
        refine List.filter_eq_nil_iff.mpr (fun pt hm => ?_)
        simp [hpt pt hm]
      rw [hflt]
      rfl
    rw [hobs]
    simp

/-- Witness for C2 (amended): an anonymous create links both tags; a create
as alice links none. -/
theorem create_prompt_scoped_tag_linking_witness :
    ((∀ q ∈ emptyDB.prompts, q.guid ≠ "g")
      ∧ (∀ pt ∈ emptyDB.prompt_tags, pt.prompt_id ≠ emptyDB.next_prompt_id)
      ∧ TagsWF emptyDB)
    ∧ ((create_prompt emptyDB "g" "c" "n" ["a", "b"] none).2 = "g"
      ∧ get_prompt (create_prompt emptyDB "g" "c" "n" ["a", "b"] none).1 "g" none
        = Except.ok ⟨⟨1, "g", "c", "n", none⟩, ["a", "b"]⟩)
    ∧ ((create_prompt emptyDB "g" "c" "n" ["a", "b"] (some alice)).2 = "g"
      ∧ get_prompt (create_prompt emptyDB "g" "c" "n" ["a", "b"] (some alice)).1 "g"
          (some alice)
        = Except.ok ⟨⟨1, "g", "c", "n", some "alice"⟩, []⟩) :=
  ⟨⟨by decide, by decide, by decide⟩,
    create_prompt_scoped_tag_linking emptyDB "g" "c" "n" ["a", "b"] none
      (by decide) (by decide) (by decide),
    create_prompt_scoped_tag_linking emptyDB "g" "c" "n" ["a", "b"] (some alice)
      (by decide) (by decide) (by decide)⟩

/-- Counterexample for claim C3: alice's prompt "g" is tagged "x"; updating
it **as alice** with the empty tag list leaves the observed tag set `["x"]`
instead of emptying it — the replace-all runs in the anonymous scope and
touches nothing of an owned prompt. -/
theorem update_prompt_authenticated_keeps_old_tags :
    get_prompt (update_prompt dbAliceTagged ⟨"c2", "n2", [], "g"⟩ (some alice)) "g"
        (some alice)
      = Except.ok ⟨⟨1, "g", "c2", "n2", some "alice"⟩, ["x"]⟩
    ∧ ["x"] ≠ ([] : List String) := by
  constructor
  · decide
  · decide

/-- Claim C3 (amended): for a prompt that is the unique row with the target
guid, the full tag-set replacement performed by `update_prompt` works as
claimed **when the acting context is absent** (the scope in which
`_update_tags` always runs): every existing association is removed and
exactly the given tags are linked — so `get` observes exactly the new list,
the empty list yields an empty tag set — and applying the same update twice
yields the same observed tag set as applying it once. -/
theorem update_prompt_anonymous_replaces_tags (db : DB) (pu : PromptUpdate)
    (p : PromptRow)
    (hchar : db.prompts.filter (fun q => q.guid == pu.guid) = [p])
    (htw : TagsWF db) :
    get_prompt (update_prompt db pu none) pu.guid none
      = Except.ok ⟨⟨p.id, pu.guid, pu.content, pu.display_name, none⟩, pu.tags⟩
    ∧ get_prompt (update_prompt (update_prompt db pu none) pu none) pu.guid none
      = get_prompt (update_prompt db pu none) pu.guid none := by
  obtain ⟨h1, h2, h3⟩ := update_prompt_none_spec db pu p hchar htw
  obtain ⟨h1x, h2x, h3x⟩ := update_prompt_none_spec (update_prompt db pu none) pu
    ⟨p.id, pu.guid, pu.content, pu.display_name, none⟩ h2 h3
  refine ⟨h1, ?_⟩
  rw [h1x, h1]

/-- Witness for C3 (amended): replacing the anonymous prompt's tag "a" by
"y" via an anonymous update, observed by `get`, and idempotence of the same
update. -/
theorem update_prompt_anonymous_replaces_tags_witness :
    (dbAnonTagged.prompts.filter (fun q => q.guid == "g")
        = [⟨1, "g", "c", "n", none⟩]
      ∧ TagsWF dbAnonTagged)
    ∧ (get_prompt (update_prompt dbAnonTagged ⟨"c2", "n2", ["y"], "g"⟩ none) "g" none
        = Except.ok ⟨⟨1, "g", "c2", "n2", none⟩, ["y"]⟩
      ∧ get_prompt (update_prompt (update_prompt dbAnonTagged
            ⟨"c2", "n2", ["y"], "g"⟩ none) ⟨"c2", "n2", ["y"], "g"⟩ none) "g" none
        = get_prompt (update_prompt dbAnonTagged ⟨"c2", "n2", ["y"], "g"⟩ none) "g"
            none) :=
  ⟨⟨by decide, by decide⟩,
    update_prompt_anonymous_replaces_tags dbAnonTagged ⟨"c2", "n2", ["y"], "g"⟩
      ⟨1, "g", "c", "n", none⟩ (by decide) (by decide)⟩

/-- Claim C10: `require_admin_user` returns a user exactly when the
username resolves, the password matches by plaintext equality and the
username is the literal "steve72"; on any credential mismatch or any other
authenticated user it returns `None` instead of raising — unlike
`require_current_user`, which raises a 401 on a mismatch. -/
theorem require_admin_user_contract (authenticate : String → Option User)
    (c : HTTPBasicCredentials) :
    (∀ u : User, require_admin_user authenticate c = some u ↔
        authenticate c.username = some u ∧ c.password = u.password
          ∧ u.username = "steve72")
    ∧ (∀ u : User, authenticate c.username = some u → c.password ≠ u.password →
        require_admin_user authenticate c = none
        ∧ require_current_user authenticate c = Except.error 401)
    ∧ (∀ u : User, authenticate c.username = some u → c.password = u.password →
        u.username ≠ "steve72" →
        require_admin_user authenticate c = none
        ∧ require_current_user authenticate c = Except.ok u)
    ∧ (authenticate c.username = none →
        require_admin_user authenticate c = none
        ∧ require_current_user authenticate c = Except.error 401) := by
  have hadm_some : ∀ u : User, authenticate c.username = some u →
      require_admin_user authenticate c =
        (if c.password == u.password && u.username == "steve72" then some u
         else none) := by
    intro u h
    unfold require_admin_user
    rw [h]
  have hcur_some : ∀ u : User, authenticate c.username = some u →
      require_current_user authenticate c =
        (if c.password == u.password then Except.ok u else Except.error 401) := by
    intro u h
    unfold require_current_user
    rw [h]
  have hadm_none : authenticate c.username = none →
      require_admin_user authenticate c = none := by
    intro h
    unfold require_admin_user
    rw [h]
  have hcur_none : authenticate c.username = none →
      require_current_user authenticate c = Except.error 401 := by
    intro h
    unfold require_current_user
    rw [h]
  refine ⟨?_, ?_, ?_, ?_⟩
  · intro u
    cases hauth : authenticate c.username with
    | none =>
      rw [hadm_none hauth]
      constructor
      · intro h
        exact absurd h (by simp)
      · rintro ⟨h1, _, _⟩
        exact absurd h1 (by simp)
    | some v =>
      rw [hadm_some v hauth]
      constructor
      · intro h
        by_cases hc : (c.password == v.password && v.username == "steve72") = true
        · rw [if_pos hc] at h
          rw [Bool.and_eq_true] at hc
          obtain ⟨hpw, hnm⟩ := hc
          obtain rfl : v = u := by simpa using h
          exact ⟨rfl, by simpa using hpw, by simpa using hnm⟩
        · rw [if_neg hc] at h
          exact absurd h (by simp)
      · rintro ⟨h1, h2, h3⟩
        have hv : v = u := by simpa using h1
        subst hv
        rw [if_pos (by simp [h2, h3])]
  · intro u hauth hne
    have hpw : (c.password == u.password) = false := by simpa using hne
    rw [hadm_some u hauth, hcur_some u hauth]
    exact ⟨by rw [if_neg (by simp [hpw])], by rw [if_neg (by simp [hpw])]⟩
  · intro u hauth hpw hnm
    have hnmb : (u.username == "steve72") = false := by simpa using hnm
    rw [hadm_some u hauth, hcur_some u hauth]
    exact ⟨by rw [if_neg (by simp [hnmb])], by rw [if_pos (by simp [hpw])]⟩
  · intro hauth
    exact ⟨hadm_none hauth, hcur_none hauth⟩

def steve : User := ⟨"steve72", "s3cret", "k"⟩

/-- The abstract `authenticate_user` dependency instantiated on a fixture
with the admin account and alice. -/
def authFixture : String → Option User := fun s =>
  if s = "steve72" then some steve
  else if s = "alice" then some alice
  else none

/-- Witness for C10: the admin logs in; alice with the right password gets
`None` from the admin gate but `ok` from the user gate; a wrong password
gets `None` vs a 401. -/
theorem require_admin_user_contract_witness :
    require_admin_user authFixture ⟨"steve72", "s3cret"⟩ = some steve
    ∧ (require_admin_user authFixture ⟨"alice", "pw"⟩ = none
      ∧ require_current_user authFixture ⟨"alice", "pw"⟩ = Except.ok alice)
    ∧ (require_admin_user authFixture ⟨"steve72", "wrong"⟩ = none
      ∧ require_current_user authFixture ⟨"steve72", "wrong"⟩ = Except.error 401) :=
  ⟨((require_admin_user_contract authFixture ⟨"steve72", "s3cret"⟩).1 steve).mpr
      ⟨by decide, by decide, by decide⟩,
    (require_admin_user_contract authFixture ⟨"alice", "pw"⟩).2.2.1 alice
      (by decide) (by decide) (by decide),
    (require_admin_user_contract authFixture ⟨"steve72", "wrong"⟩).2.1 steve
      (by decide) (by decide)⟩

end Codepromptu
